import Mathlib

set_option maxHeartbeats 1000000
set_option maxRecDepth 100000

/- Verification development for the message-composition and delivery-filtering
   core of src/eruv_alerts.py.  Python strings are modelled as List Char
   (character sequences, so lengths are character counts, matching the SMS
   segment boundary), and fallible Python operations (list indexing, int
   parsing) return Option.  Recursions that Python runs as loops are written
   with an explicit fuel argument that is always large enough, so every
   definition evaluates by kernel reduction. -/

/-- Python substring membership: strContains s sub is the Python test sub in s,
    true when sub occurs contiguously inside s. -/
def strContains (s pat : List Char) : Bool :=
  if pat.isPrefixOf s then true
  else
    match s with
    | [] => false
    | _ :: t => strContains t pat

/-- Python str.lower, character by character. -/
def pyLower (l : List Char) : List Char := l.map Char.toLower

/-- Python str.strip with no argument: drop whitespace from both ends. -/
def pyStrip (l : List Char) : List Char :=
  ((l.dropWhile Char.isWhitespace).reverse.dropWhile Char.isWhitespace).reverse

/-- Python str.split with a one-character separator. -/
def splitOnChar (sep : Char) : List Char → List (List Char)
  | [] => [[]]
  | c :: t =>
    let r := splitOnChar sep t
    if c = sep then [] :: r
    else (c :: r.headD []) :: r.tail

/-- Decimal digit character of a value below ten, as Python str renders it. -/
def digitOf : Nat → Char
  | 0 => '0'
  | 1 => '1'
  | 2 => '2'
  | 3 => '3'
  | 4 => '4'
  | 5 => '5'
  | 6 => '6'
  | 7 => '7'
  | 8 => '8'
  | _ => '9'

/-- Decimal digits of a natural number, most significant first; the first
    argument is recursion fuel (the number itself is always enough). -/
def natDigitsAux : Nat → Nat → List Char
  | 0, n => [digitOf (n % 10)]
  | fuel + 1, n =>
    if n < 10 then [digitOf n] else natDigitsAux fuel (n / 10) ++ [digitOf (n % 10)]

/-- Python str of a natural number. -/
def natDigits (n : Nat) : List Char := natDigitsAux n n

/-- Python str of an integer. -/
def pyStrInt : Int → List Char
  | .ofNat n => natDigits n
  | .negSucc n => '-' :: natDigits (n + 1)

/-- Python str.zfill 2: left-pad with zero characters to two characters. -/
def zfill2 (l : List Char) : List Char :=
  if 2 ≤ l.length then l else List.replicate (2 - l.length) '0' ++ l

/-- Value of a nonempty all-digit character list. -/
def digitsVal (l : List Char) : Option Nat :=
  if l ≠ [] ∧ l.all Char.isDigit then
    some (l.foldl (fun a c => a * 10 + (c.toNat - 48)) 0)
  else none

/-- Python int on a string: optional surrounding whitespace, an optional
    sign, then decimal digits; anything else raises, modelled as none.
    Underscore digit grouping is not modelled. -/
def pyInt (s : List Char) : Option Int :=
  match pyStrip s with
  | '-' :: rest => (digitsVal rest).map (fun n => -(n : Int))
  | '+' :: rest => (digitsVal rest).map (fun n => (n : Int))
  | t => (digitsVal t).map (fun n => (n : Int))

/-- The single truncation target of shorten_message in src/eruv_alerts.py. -/
def pat50 : List Char := (" (50 min)").toList

/-- One Python str.replace of pat50 by the empty string: remove every
    non-overlapping occurrence, scanning left to right.  The first argument
    is fuel; the length of the scanned text is always enough. -/
def removeAux : Nat → List Char → List Char
  | 0, s => s
  | fuel + 1, s =>
    match s with
    | [] => []
    | c :: t =>
      if pat50.isPrefixOf (c :: t) then removeAux fuel (t.drop 8)
      else c :: removeAux fuel t

/-- Python message.replace(pat50, empty) as called by shorten_message. -/
def removePat (s : List Char) : List Char := removeAux s.length s

/-- shorten_message from src/eruv_alerts.py: while the text is longer than
    160 characters and contains pat50, replace all occurrences of pat50 with
    the empty string and retry; an over-length text without the marker is
    returned as is (the script only prints a warning there). -/
def shortenAux : Nat → List Char → List Char
  | 0, m => m
  | fuel + 1, m =>
    if m.length ≤ 160 then m
    else if strContains m pat50 then shortenAux fuel (removePat m) else m

/-- shorten_message of src/eruv_alerts.py lines 45 to 60. -/
def shorten_message (m : List Char) : List Char := shortenAux m.length m

/-- True exactly when shorten_message reaches its warning branch, the print
    for a message still over 160 characters after all removals. -/
def shortenWarnsAux : Nat → List Char → Bool
  | 0, _ => false
  | fuel + 1, m =>
    if m.length ≤ 160 then false
    else if strContains m pat50 then shortenWarnsAux fuel (removePat m) else true

/-- Warning-branch indicator of shorten_message. -/
def shorten_warns (m : List Char) : Bool := shortenWarnsAux m.length m

theorem strContains_cons (c : Char) (t pat : List Char) :
    strContains (c :: t) pat = (pat.isPrefixOf (c :: t) || strContains t pat) := by
  by_cases h : pat.isPrefixOf (c :: t) <;> simp [strContains, h]

theorem strContains_nil (pat : List Char) :
    strContains [] pat = pat.isPrefixOf [] := by
  by_cases h : pat.isPrefixOf ([] : List Char) <;> simp [strContains, h]

theorem pat50_length : pat50.length = 9 := by decide

theorem removeAux_length_le : ∀ (f : Nat) (s : List Char),
    (removeAux f s).length ≤ s.length := by
  intro f
  induction f with
  | zero => intro s; simp [removeAux]
  | succ f ih =>
    intro s
    match s with
    | [] => simp [removeAux]
    | c :: t =>
      simp only [removeAux]
      split
      · have h1 := ih (t.drop 8)
        have h2 : (t.drop 8).length ≤ t.length := by
          simp [List.length_drop]
        simp only [List.length_cons]
        omega
      · simp only [List.length_cons]
        have := ih t
        omega

theorem removeAux_length_lt : ∀ (f : Nat) (s : List Char), s.length ≤ f →
    strContains s pat50 = true → (removeAux f s).length + 9 ≤ s.length := by
  intro f
  induction f with
  | zero =>
    intro s hf hc
    have : s = [] := List.length_eq_zero.mp (Nat.le_zero.mp hf)
    subst this
    simp [strContains_nil] at hc
    exact absurd hc (by decide)
  | succ f ih =>
    intro s hf hc
    match s with
    | [] =>
      simp [strContains_nil] at hc
      exact absurd hc (by decide)
    | c :: t =>
      simp only [removeAux]
      split
      · rename_i hpre
        have hlen : pat50.length ≤ (c :: t).length :=
          (List.isPrefixOf_iff_prefix.mp hpre).length_le
        rw [pat50_length] at hlen
        simp only [List.length_cons] at hlen
        have h1 := removeAux_length_le f (t.drop 8)
        have h2 : (t.drop 8).length = t.length - 8 := by simp [List.length_drop]
        simp only [List.length_cons]
        omega
      · rename_i hpre
        rw [strContains_cons] at hc
        simp only [hpre, Bool.false_or] at hc
        have := ih t (by simpa using Nat.le_of_succ_le_succ hf) hc
        simp only [List.length_cons]
        omega

theorem removePat_length_lt (s : List Char) (hc : strContains s pat50 = true) :
    (removePat s).length + 9 ≤ s.length :=
  removeAux_length_lt s.length s (Nat.le_refl _) hc

/-- Any fuel returns a short message untouched. -/
theorem shortenAux_of_short : ∀ (f : Nat) (m : List Char), m.length ≤ 160 →
    shortenAux f m = m := by
  intro f m h
  match f with
  | 0 => simp [shortenAux]
  | f + 1 => simp [shortenAux, h]

/-- Any fuel returns a message without the marker untouched. -/
theorem shortenAux_of_no_pat : ∀ (f : Nat) (m : List Char),
    strContains m pat50 = false → shortenAux f m = m := by
  intro f m h
  match f with
  | 0 => simp [shortenAux]
  | f + 1 =>
    simp only [shortenAux]
    split
    · rfl
    · simp [h]

/-- Invariant of the shortening loop: with enough fuel the result is within
    the limit or free of the marker. -/
theorem shortenAux_invariant : ∀ (f : Nat) (m : List Char), m.length ≤ f →
    (shortenAux f m).length ≤ 160 ∨ strContains (shortenAux f m) pat50 = false := by
  intro f
  induction f with
  | zero =>
    intro m hf
    have : m = [] := List.length_eq_zero.mp (Nat.le_zero.mp hf)
    subst this
    left
    simp [shortenAux]
  | succ f ih =>
    intro m hf
    simp only [shortenAux]
    split
    · left; assumption
    · rename_i hlong
      split
      · rename_i hc
        have hdrop := removePat_length_lt m hc
        exact ih (removePat m) (by omega)
      · rename_i hc
        right
        exact Bool.not_eq_true _ ▸ (by simpa using hc)

theorem shorten_message_invariant (m : List Char) :
    (shorten_message m).length ≤ 160 ∨
      strContains (shorten_message m) pat50 = false :=
  shortenAux_invariant m.length m (Nat.le_refl _)

theorem shorten_message_of_short (m : List Char) (h : m.length ≤ 160) :
    shorten_message m = m :=
  shortenAux_of_short m.length m h

theorem shorten_message_of_no_pat (m : List Char)
    (h : strContains m pat50 = false) : shorten_message m = m :=
  shortenAux_of_no_pat m.length m h

theorem shorten_message_idem (m : List Char) :
    shorten_message (shorten_message m) = shorten_message m := by
  rcases shorten_message_invariant m with h | h
  · exact shorten_message_of_short _ h
  · by_cases hlen : (shorten_message m).length ≤ 160
    · exact shorten_message_of_short _ hlen
    · exact shortenAux_of_no_pat _ _ h

/- JSON-like trees, as traversed by extract_values in src/eruv_alerts.py.
   Leaves carry strings (the only leaf values the script reads); an object is
   an ordered list of key-value entries, an array an ordered list of values,
   both insertion-ordered as Python dicts and lists are. -/

mutual

inductive Json where
  | atom : String → Json
  | obj : Entries → Json
  | arr : Elems → Json

inductive Entries where
  | nil : Entries
  | cons : String → Json → Entries → Entries

inductive Elems where
  | nil : Elems
  | cons : Json → Elems → Elems

end

/-- Python in-test on strings, as used on extracted titles and descriptions:
    pyIn sub s is true when sub occurs inside s. -/
def pyIn (sub s : String) : Bool := strContains s.toList sub.toList

mutual

/-- extract_values from src/eruv_alerts.py lines 23 to 42: in a dict, an
    entry whose value is itself a dict or list is recursed into (its own key
    is not checked), an entry whose value is a leaf contributes it when its
    key matches; list elements are recursed into in order. -/
def extract_values (key : String) : Json → List String
  | .atom _ => []
  | .obj es => extractEntries key es
  | .arr xs => extractElems key xs

/-- Dict part of the extract_values recursion. -/
def extractEntries (key : String) : Entries → List String
  | .nil => []
  | .cons k v rest =>
    (match v with
     | .atom s => if k == key then [s] else []
     | .obj es => extractEntries key es
     | .arr xs => extractElems key xs) ++ extractEntries key rest

/-- List part of the extract_values recursion. -/
def extractElems (key : String) : Elems → List String
  | .nil => []
  | .cons v rest => extract_values key v ++ extractElems key rest

end

mutual

/-- Modelled from the spec words of the testable property: the count of
    leaf-typed keys equal to the searched key, reachable by depth-first
    traversal. -/
def countLeafMatches (key : String) : Json → Nat
  | .atom _ => 0
  | .obj es => countEntriesMatches key es
  | .arr xs => countElemsMatches key xs

/-- Dict part of the leaf-match count. -/
def countEntriesMatches (key : String) : Entries → Nat
  | .nil => 0
  | .cons k v rest =>
    (match v with
     | .atom _ => if k == key then 1 else 0
     | .obj es => countEntriesMatches key es
     | .arr xs => countElemsMatches key xs) + countEntriesMatches key rest

/-- List part of the leaf-match count. -/
def countElemsMatches (key : String) : Elems → Nat
  | .nil => 0
  | .cons v rest => countLeafMatches key v + countElemsMatches key rest

end

mutual

theorem extract_length_json (key : String) :
    ∀ t : Json, (extract_values key t).length = countLeafMatches key t
  | .atom s => by simp [extract_values, countLeafMatches]
  | .obj es => by
    simp only [extract_values, countLeafMatches]
    exact extract_length_entries key es
  | .arr xs => by
    simp only [extract_values, countLeafMatches]
    exact extract_length_elems key xs

theorem extract_length_entries (key : String) :
    ∀ es : Entries, (extractEntries key es).length = countEntriesMatches key es
  | .nil => by simp [extractEntries, countEntriesMatches]
  | .cons k v rest => by
    have hrest := extract_length_entries key rest
    match v with
    | .atom s =>
      simp only [extractEntries, countEntriesMatches, List.length_append]
      by_cases h : k == key <;> simp [h, hrest]
    | .obj es =>
      have h1 := extract_length_entries key es
      simp only [extractEntries, countEntriesMatches, List.length_append]
      omega
    | .arr xs =>
      have h1 := extract_length_elems key xs
      simp only [extractEntries, countEntriesMatches, List.length_append]
      omega

theorem extract_length_elems (key : String) :
    ∀ xs : Elems, (extractElems key xs).length = countElemsMatches key xs
  | .nil => by simp [extractElems, countElemsMatches]
  | .cons v rest => by
    simp only [extractElems, countElemsMatches, List.length_append]
    have h1 := extract_length_json key v
    have h2 := extract_length_elems key rest
    omega

end

/-- The nested example tree of the testable property: an object with key a
    holding an object with key b holding an object with a title leaf X, and a
    top-level title leaf Y. -/
def c3Tree : Json :=
  Json.obj (Entries.cons "a"
    (Json.obj (Entries.cons "b"
      (Json.obj (Entries.cons "title" (Json.atom "X") Entries.nil))
      Entries.nil))
    (Entries.cons "title" (Json.atom "Y") Entries.nil))

/-- Seconds field of army_to_meridian in src/eruv_alerts.py: zero unless the
    input has exactly two colons, in which case the third colon-separated
    part is parsed with int (parse failure raises, modelled as none). -/
def secondsField (t : List Char) : Option Int :=
  if t.count ':' == 2 then ((splitOnChar ':' t).get? 2).bind pyInt else some 0

/-- Meridian word chosen from the pre-conversion hour. -/
def meridianSuffix (hours0 : Int) : List Char :=
  if 12 ≤ hours0 then (" PM").toList else (" AM").toList

/-- Hour rendered by army_to_meridian: drop twelve from PM hours, then show
    hour zero as twelve. -/
def hour12 (hours0 : Int) : Int :=
  if (if 12 ≤ hours0 then hours0 - 12 else hours0) = 0 then 12
  else (if 12 ≤ hours0 then hours0 - 12 else hours0)

/-- army_to_meridian from src/eruv_alerts.py lines 62 to 80: text already
    holding am or pm (case-insensitive) is returned unchanged; otherwise the
    colon-separated hour and minute (and, with two colons, second) fields are
    parsed, hours twelve and above switch to PM and drop twelve, hour zero
    renders as twelve, minutes and seconds are zero-padded to two characters
    and seconds are printed only when nonzero.  A missing or unparsable field
    raises in Python, modelled as none. -/
def army_to_meridian (t : List Char) : Option (List Char) :=
  if strContains (pyLower t) ("am").toList || strContains (pyLower t) ("pm").toList then
    some t
  else
    match ((splitOnChar ':' t).get? 0).bind pyInt,
        ((splitOnChar ':' t).get? 1).bind pyInt with
    | some hours0, some minutes =>
      match secondsField t with
      | some seconds =>
        some (pyStrInt (hour12 hours0) ++ [':'] ++ zfill2 (pyStrInt minutes) ++
          (if seconds ≠ 0 then [':'] ++ zfill2 (pyStrInt seconds) else []) ++
          meridianSuffix hours0)
      | none => none
    | _, _ => none

/-- The Python truthiness test response equal to the empty string: the hebcal
    response variable is the empty string exactly when fetching was skipped. -/
def isEmptyResp : Json → Bool
  | .atom s => s == ""
  | _ => false

/-- Candle-lighting selection of src/eruv_alerts.py lines 310 to 316: with a
    fetched response, index zero of the titles containing Candle; an empty
    filtered list makes Python raise IndexError, modelled as none. -/
def candle_lighting_step (response : Json) : Option String :=
  if isEmptyResp response then some ""
  else ((extract_values "title" response).filter (fun i => pyIn "Candle" i)).head?

/-- Storm test of src/eruv_alerts.py line 385: some description extracted
    from the weather response contains thunderstorm or tornado, or else the
    weather flag is set and the no-weather flag is not (Python precedence:
    a or b and c). -/
def stormBranch (wr : Json) (weatherFlag noWeather : Bool) : Bool :=
  !((extract_values "description" wr).filter
      (fun i => pyIn "thunderstorm" i || pyIn "tornado" i)).isEmpty ||
    (weatherFlag && !noWeather)

/-- Weather response actually in scope at line 385: the empty string when
    weather is skipped or a custom message is configured, the fetched
    response otherwise (src/eruv_alerts.py lines 361 to 373). -/
def weatherResponseOf (fetched : Json) (noWeather custom : Bool) : Json :=
  if noWeather || custom then Json.atom "" else fetched

/-- Prequel of src/eruv_alerts.py lines 381 to 390. -/
def prequelOf (storm : Bool) : List Char :=
  if storm then (" As of now, the ").toList else (" The ").toList

/-- Sequel of src/eruv_alerts.py lines 381 to 390. -/
def sequelOf (storm : Bool) : List Char :=
  if storm then (". If winds exceed 35 mph, consider the Eruv down").toList else []

/-- Greeting variants of src/eruv_alerts.py line 84. -/
def greetings : List (List Char) :=
  [("a great").toList, ("a wonderful").toList, ("an amazing").toList, ("a good").toList]

/-- Message assembly of src/eruv_alerts.py line 407: the randomly chosen
    greeting clause is appended only when the sequel is empty. -/
def composeBody (parsha prequel city status sequel candle havdalah greeting holiday :
    List Char) : List Char :=
  parsha ++ prequel ++ city ++ (" Eruv is ").toList ++ status ++ sequel ++
    (". ").toList ++ candle ++ havdalah ++
    (if sequel == [] then
      ("Have ").toList ++ greeting ++ (" Shabbos").toList ++ holiday ++ ("!").toList
     else [])

/-- Post-composition handling of src/eruv_alerts.py lines 411 to 423: the
    composed base is shortened and stripped, a configured custom message
    replaces it verbatim, then the donation clause and the stripped appended
    clause are added in that order.  The result is the body handed to the
    SMS sink. -/
def finalBody (base : List Char) (custom : Option (List Char)) (donate : Bool)
    (app : Option (List Char)) : List Char :=
  let m1 := pyStrip (shorten_message base)
  let m2 := match custom with
    | some c => c
    | none => m1
  let m3 := if donate then
      m2 ++ (" Please visit bit.ly/nmberuv to cover the costs.").toList
    else m2
  match app with
  | some a => m3 ++ (" ").toList ++ pyStrip a
  | none => m3

/-- Trimmed elements of a subscriber city cell, src/eruv_alerts.py line 396. -/
def trimmedItems (cityFound : List Char) : List (List Char) :=
  (splitOnChar ',' cityFound).map pyStrip

/-- WhatsApp channel test of src/eruv_alerts.py line 400. -/
def isWhatsApp (cell : List Char) : Bool := pyLower cell == ("whatsapp").toList

/-- Sends performed for one subscriber row in the loop of src/eruv_alerts.py
    lines 395 to 444: one send per trimmed element equal to the city, except
    that a WhatsApp subscriber without the include-whatsapp flag is skipped
    by the continue statement. -/
def sendsToSubscriber (city cityFound cell : List Char) (includeWA : Bool) : Nat :=
  (trimmedItems cityFound).foldl
    (fun n item =>
      if city == item then
        if isWhatsApp cell && !includeWA then n else n + 1
      else n) 0

/-- RecipientFilter of the specification, read off the source loop: whether
    the subscriber row receives at least one message for the city. -/
def shouldSend (city cityFound cell : List Char) (includeWA : Bool) : Bool :=
  sendsToSubscriber city cityFound cell includeWA != 0

/-- Per-city gating outcome of src/eruv_alerts.py lines 257 to 280. -/
inductive CityAction where
  | skipBlacklist
  | skipWhitelist
  | skipPending
  | process
deriving DecidableEq

/-- City gate of src/eruv_alerts.py lines 257 to 280: blacklist first
    (case-insensitive), then whitelist (case-insensitive), then the Pending
    status.  An absent flag is the empty list, matching Python truthiness of
    None and of an empty list. -/
def cityGate (city status : String) (bl wl : List String) : CityAction :=
  if !bl.isEmpty && (bl.map (fun x => pyLower x.toList)).contains (pyLower city.toList) then
    .skipBlacklist
  else if !wl.isEmpty && !((wl.map (fun x => pyLower x.toList)).contains (pyLower city.toList)) then
    .skipWhitelist
  else if status == "Pending" then .skipPending
  else .process

/-- Zip lookup of src/eruv_alerts.py lines 282 to 289: first rabbi row whose
    city matches, none when the sentinel zero survives the loop. -/
def lookupZip : List (String × String) → String → Option String
  | [], _ => none
  | (rc, z) :: rest, city => if rc == city then some z else lookupZip rest city

/-- Total sends for one processed city over all subscriber rows, each row a
    pair of the city cell and the WhatsApp cell. -/
def citySends (city : List Char) (subs : List (List Char × List Char))
    (includeWA : Bool) : Nat :=
  (subs.map (fun s => sendsToSubscriber city s.1 s.2 includeWA)).sum

/-- Outcome of one city in the main loop. -/
inductive CityOutcome where
  | skippedBlacklist
  | skippedWhitelist
  | skippedPending
  | abortedInvalidZip
  | notified (count : Nat)
deriving DecidableEq

/-- Messages sent for a city with the given outcome. -/
def outcomeSends : CityOutcome → Nat
  | .notified n => n
  | _ => 0

/-- Main city loop of src/eruv_alerts.py lines 257 to 455: cities are
    processed in store order, gate skips continue with the next city, and a
    missing zip code calls quit, ending the whole run at once. -/
def runCities (bl wl : List String) (rabbis : List (String × String))
    (subs : List (List Char × List Char)) (includeWA : Bool) :
    List (String × String) → List (String × CityOutcome)
  | [] => []
  | (city, status) :: rest =>
    match cityGate city status bl wl with
    | .skipBlacklist =>
      (city, .skippedBlacklist) :: runCities bl wl rabbis subs includeWA rest
    | .skipWhitelist =>
      (city, .skippedWhitelist) :: runCities bl wl rabbis subs includeWA rest
    | .skipPending =>
      (city, .skippedPending) :: runCities bl wl rabbis subs includeWA rest
    | .process =>
      match lookupZip rabbis city with
      | none => [(city, .abortedInvalidZip)]
      | some _ =>
        (city, .notified (citySends city.toList subs includeWA)) ::
          runCities bl wl rabbis subs includeWA rest

theorem strContains_infix_iff : ∀ (s pat : List Char),
    strContains s pat = true ↔ pat <:+: s := by
  intro s pat
  induction s with
  | nil =>
    rw [strContains_nil]
    simp [List.isPrefixOf_iff_prefix]
  | cons c t ih =>
    rw [strContains_cons]
    simp only [Bool.or_eq_true, List.isPrefixOf_iff_prefix, ih, List.infix_cons_iff]

theorem strContains_infix_mono {r l pat : List Char} (hinf : r <:+: l)
    (h : strContains r pat = true) : strContains l pat = true := by
  rw [strContains_infix_iff] at h ⊢
  exact h.trans hinf

theorem pyStrip_infix_self (l : List Char) : pyStrip l <:+: l := by
  have h1 : (l.dropWhile Char.isWhitespace) <:+ l := List.dropWhile_suffix _
  have h2 : ((l.dropWhile Char.isWhitespace).reverse.dropWhile Char.isWhitespace) <:+
      (l.dropWhile Char.isWhitespace).reverse := List.dropWhile_suffix _
  have h3 := List.reverse_prefix.mpr h2
  rw [List.reverse_reverse] at h3
  exact h3.isInfix.trans h1.isInfix

theorem pyStrip_length_le (l : List Char) : (pyStrip l).length ≤ l.length :=
  (pyStrip_infix_self l).sublist.length_le

theorem sendsToSubscriber_foldl (city cell : List Char) (includeWA : Bool) :
    ∀ (l : List (List Char)) (n : Nat),
      l.foldl (fun n item =>
        if city == item then
          if isWhatsApp cell && !includeWA then n else n + 1
        else n) n =
      n + (if isWhatsApp cell && !includeWA then 0 else l.count city) := by
  intro l
  induction l with
  | nil => intro n; simp
  | cons a l ih =>
    intro n
    rw [List.foldl_cons, List.count_cons, ih]
    by_cases h : city = a
    · subst h
      by_cases hw : (isWhatsApp cell && !includeWA) = true
      · simp [hw]
      · rw [Bool.not_eq_true] at hw
        simp [hw]
        omega
    · have h1 : (city == a) = false := beq_eq_false_iff_ne.mpr h
      have h2 : (a == city) = false := beq_eq_false_iff_ne.mpr (Ne.symm h)
      simp [h1, h2]

theorem sendsToSubscriber_eq (city cityFound cell : List Char) (includeWA : Bool) :
    sendsToSubscriber city cityFound cell includeWA =
      if isWhatsApp cell && !includeWA then 0
      else (trimmedItems cityFound).count city := by
  unfold sendsToSubscriber
  rw [sendsToSubscriber_foldl]
  simp

theorem digitOf_ne_colon (k : Nat) : digitOf k ≠ ':' := by
  unfold digitOf
  split <;> decide

theorem colon_not_mem_natDigitsAux : ∀ (f n : Nat), ':' ∉ natDigitsAux f n := by
  intro f
  induction f with
  | zero =>
    intro n h
    simp only [natDigitsAux, List.mem_singleton] at h
    exact digitOf_ne_colon _ h.symm
  | succ f ih =>
    intro n h
    simp only [natDigitsAux] at h
    split at h
    · simp only [List.mem_singleton] at h
      exact digitOf_ne_colon _ h.symm
    · rcases List.mem_append.mp h with h1 | h1
      · exact ih _ h1
      · simp only [List.mem_singleton] at h1
        exact digitOf_ne_colon _ h1.symm

theorem colon_not_mem_pyStrInt (i : Int) : ':' ∉ pyStrInt i := by
  match i with
  | .ofNat n =>
    simpa [pyStrInt, natDigits] using colon_not_mem_natDigitsAux n n
  | .negSucc n =>
    intro h
    simp only [pyStrInt, List.mem_cons] at h
    rcases h with h | h
    · exact absurd h (by decide)
    · exact colon_not_mem_natDigitsAux _ _ h

theorem colon_not_mem_zfill2 {l : List Char} (h : ':' ∉ l) : ':' ∉ zfill2 l := by
  unfold zfill2
  split
  · exact h
  · intro hmem
    rcases List.mem_append.mp hmem with h1 | h1
    · exact absurd (List.eq_of_mem_replicate h1) (by decide)
    · exact h h1

theorem colon_not_mem_meridianSuffix (h : Int) : ':' ∉ meridianSuffix h := by
  unfold meridianSuffix
  split <;> decide

/-- C1 counterexample: a 161-character body without the removable marker is
    returned unchanged by shorten_message and handed to the SMS sink with
    161 characters; no error aborts the run, refuting the claim that an
    over-length body is never emitted. -/
theorem c1_counterexample :
    shorten_message (List.replicate 161 'a') = List.replicate 161 'a' ∧
    160 < (finalBody (List.replicate 161 'a') none false none).length := by
  exact ⟨by decide, by decide⟩

/-- C1 amended: when a composed body exceeds 160 characters and lacks the
    marker, shorten_message surfaces the condition only through its warning
    print, returns the body unchanged, and the run continues, handing the
    stripped over-length body to the SMS sink. -/
theorem c1_overlength_warns_and_returns :
    ∀ m : List Char, 160 < m.length → strContains m pat50 = false →
      shorten_message m = m ∧ shorten_warns m = true ∧
      finalBody m none false none = pyStrip m := by
  intro m hlen hpat
  refine ⟨shorten_message_of_no_pat m hpat, ?_, ?_⟩
  · unfold shorten_warns
    obtain ⟨k, hk⟩ : ∃ k, m.length = k + 1 := ⟨m.length - 1, by omega⟩
    rw [hk]
    simp only [shortenWarnsAux]
    rw [if_neg (by omega), hpat]
    simp
  · show pyStrip (shorten_message m) = pyStrip m
    rw [shorten_message_of_no_pat m hpat]

/-- C1 witness at a concrete 170-character body. -/
theorem c1_overlength_witness :
    shorten_message (List.replicate 170 'b') = List.replicate 170 'b' ∧
    shorten_warns (List.replicate 170 'b') = true ∧
    finalBody (List.replicate 170 'b') none false none =
      pyStrip (List.replicate 170 'b') :=
  c1_overlength_warns_and_returns (List.replicate 170 'b') (by decide) (by decide)

/-- C2 counterexample: a 160-character base body passes shortening untouched,
    and the donation clause appended afterwards hands a 208-character body to
    the SMS sink, refuting the claimed 160-character bound. -/
theorem c2_counterexample :
    160 < (finalBody (List.replicate 160 'a') none true none).length := by
  decide

/-- C2 amended: with no custom override, donation clause, or appended clause,
    the body handed to the SMS sink is within 160 characters or contains no
    removable marker; the optional clauses are appended after shortening and
    void the bound. -/
theorem c2_sink_body_bound :
    ∀ base : List Char,
      (finalBody base none false none).length ≤ 160 ∨
      strContains (finalBody base none false none) pat50 = false := by
  intro base
  have hfb : finalBody base none false none = pyStrip (shorten_message base) := rfl
  rw [hfb]
  rcases shorten_message_invariant base with h | h
  · exact Or.inl (le_trans (pyStrip_length_le _) h)
  · right
    by_contra hc
    rw [Bool.not_eq_false] at hc
    have h2 := strContains_infix_mono (pyStrip_infix_self (shorten_message base)) hc
    rw [h] at h2
    cases h2

/-- C3 counterexample: on the documented nested tree the extractor does not
    yield the singleton Y; the leaf X nested below a and b is collected too. -/
theorem c3_counterexample : extract_values "title" c3Tree ≠ ["Y"] := by decide

/-- C3 amended: the nested example yields the two leaves X then Y in document
    order, and for every tree the result length equals the count of
    leaf-typed keys equal to the searched key reachable depth-first. -/
theorem c3_extract_leaf_law :
    extract_values "title" c3Tree = ["X", "Y"] ∧
    ∀ (key : String) (t : Json),
      (extract_values key t).length = countLeafMatches key t :=
  ⟨by decide, fun key t => extract_length_json key t⟩

/-- A fetched liturgical response whose only title holds Havdalah, the C4
    failing input. -/
def c4Response : Json :=
  Json.obj (Entries.cons "items"
    (Json.arr (Elems.cons
      (Json.obj (Entries.cons "title" (Json.atom "Havdalah: 20:05") Entries.nil))
      Elems.nil))
    Entries.nil)

/-- C4 evaluation at the failing input: the response is fetched (not the
    empty string), the filtered candle titles are empty, and the selection
    step yields none, the model of the Python IndexError raised by indexing
    position zero of an empty list; composition does not succeed there. -/
theorem c4_candle_indexerror :
    isEmptyResp c4Response = false ∧
    (extract_values "title" c4Response).filter (fun i => pyIn "Candle" i) = [] ∧
    candle_lighting_step c4Response = none := by
  exact ⟨by decide, by decide, by decide⟩

/-- C5 counterexample: a subscriber whose city cell lists the city twice
    receives two sends in one city pass, refuting at-most-once delivery. -/
theorem c5_counterexample :
    1 < sendsToSubscriber ("X").toList ("X, X").toList [] false := by decide

/-- C5 amended: per city pass, a subscriber row receives exactly one send
    per trimmed occurrence of the city in its comma-delimited cell, and zero
    sends when the row is WhatsApp without the include flag. -/
theorem c5_sends_per_occurrence :
    ∀ (city cityFound cell : List Char) (includeWA : Bool),
      sendsToSubscriber city cityFound cell includeWA =
        if isWhatsApp cell && !includeWA then 0
        else (trimmedItems cityFound).count city :=
  fun city cityFound cell includeWA =>
    sendsToSubscriber_eq city cityFound cell includeWA

/-- C10 counterexample: a 169-character message with overlapping marker
    pieces; removing the single inner occurrence recombines the remainder
    into a fresh marker while the length falls to 160, so the input is over
    the limit yet the output still contains the marker. -/
theorem c10_counterexample :
    160 < ((" (50 (50 min) min)").toList ++ List.replicate 151 'a').length ∧
    strContains
      (shorten_message ((" (50 (50 min) min)").toList ++ List.replicate 151 'a'))
      pat50 = true := by
  exact ⟨by decide, by decide⟩

/-- C10 amended: shorten_message is idempotent and is the identity within
    the limit; its output contains the marker only when the output is within
    the limit (an over-length output is always marker-free). -/
theorem c10_shorten_algebra :
    ∀ m : List Char,
      shorten_message (shorten_message m) = shorten_message m ∧
      (m.length ≤ 160 → shorten_message m = m) ∧
      (160 < (shorten_message m).length →
        strContains (shorten_message m) pat50 = false) := by
  intro m
  refine ⟨shorten_message_idem m, shorten_message_of_short m, ?_⟩
  intro h
  rcases shorten_message_invariant m with h1 | h1
  · omega
  · exact h1

/-- C10 witness at concrete inputs for each hypothesis. -/
theorem c10_shorten_algebra_witness :
    shorten_message (List.replicate 42 'c') = List.replicate 42 'c' ∧
    strContains (shorten_message (List.replicate 161 'd')) pat50 = false := by
  refine ⟨(c10_shorten_algebra (List.replicate 42 'c')).2.1 (by decide), ?_⟩
  exact (c10_shorten_algebra (List.replicate 161 'd')).2.2 (by decide)

/-- C7: shouldSend is true exactly when the city appears, case-sensitively,
    among the trimmed elements of the comma-delimited city cell and the row
    is not a WhatsApp row with the include flag unset; in particular it is
    false whenever no trimmed element matches. -/
theorem c7_shouldSend_iff :
    ∀ (city cityFound cell : List Char) (includeWA : Bool),
      shouldSend city cityFound cell includeWA = true ↔
        (city ∈ trimmedItems cityFound ∧
          ¬(isWhatsApp cell = true ∧ includeWA = false)) := by
  intro city cityFound cell includeWA
  unfold shouldSend
  rw [bne_iff_ne, sendsToSubscriber_eq]
  by_cases hw : isWhatsApp cell <;> by_cases hi : includeWA
  · simp [hw, hi, Ne, List.count_eq_zero]
  · simp [hw, hi]
  · simp [hw, hi, Ne, List.count_eq_zero]
  · simp [hw, hi, Ne, List.count_eq_zero]

/-- C8: a blacklisted city (any casing, whatever the whitelist says) is
    skipped with zero sends and processing continues with the remaining
    cities; a Pending city passing both lists is likewise skipped without
    aborting the run. -/
theorem c8_city_gating :
    (∀ (bl wl : List String) (rabbis : List (String × String))
        (subs : List (List Char × List Char)) (inc : Bool)
        (city status : String) (rest : List (String × String)),
      bl ≠ [] →
      (bl.map (fun x => pyLower x.toList)).contains (pyLower city.toList) = true →
      runCities bl wl rabbis subs inc ((city, status) :: rest) =
        (city, CityOutcome.skippedBlacklist) ::
          runCities bl wl rabbis subs inc rest) ∧
    (∀ (bl wl : List String) (rabbis : List (String × String))
        (subs : List (List Char × List Char)) (inc : Bool)
        (city status : String) (rest : List (String × String)),
      (bl = [] ∨
        (bl.map (fun x => pyLower x.toList)).contains (pyLower city.toList) = false) →
      (wl = [] ∨
        (wl.map (fun x => pyLower x.toList)).contains (pyLower city.toList) = true) →
      status = "Pending" →
      runCities bl wl rabbis subs inc ((city, status) :: rest) =
        (city, CityOutcome.skippedPending) ::
          runCities bl wl rabbis subs inc rest) ∧
    outcomeSends CityOutcome.skippedBlacklist = 0 ∧
    outcomeSends CityOutcome.skippedPending = 0 := by
  refine ⟨?_, ?_, rfl, rfl⟩
  · intro bl wl rabbis subs inc city status rest hbl hmem
    have hne : bl.isEmpty = false := by
      cases bl with
      | nil => exact absurd rfl hbl
      | cons b bs => rfl
    have hg : cityGate city status bl wl = CityAction.skipBlacklist := by
      unfold cityGate
      rw [hne, hmem]
      rfl
    simp only [runCities, hg]
  · intro bl wl rabbis subs inc city status rest hbl hwl hp
    have hg : cityGate city status bl wl = CityAction.skipPending := by
      have h1 : (!bl.isEmpty &&
          (bl.map (fun x => pyLower x.toList)).contains (pyLower city.toList)) = false := by
        rcases hbl with h | h
        · subst h; rfl
        · rw [h]; simp
      have h2 : (!wl.isEmpty &&
          !((wl.map (fun x => pyLower x.toList)).contains (pyLower city.toList))) = false := by
        rcases hwl with h | h
        · subst h; rfl
        · rw [h]; simp
      unfold cityGate
      rw [h1, h2, hp]
      rfl
    simp only [runCities, hg]

/-- C8 witness: a concrete blacklisted city and a concrete Pending city. -/
theorem c8_city_gating_witness :
    runCities ["example city"] ["Example City"] [("Other", "11111")] [] false
        [("Example City", "Open"), ("Other", "Open")] =
      ("Example City", CityOutcome.skippedBlacklist) ::
        runCities ["example city"] ["Example City"] [("Other", "11111")] [] false
          [("Other", "Open")] ∧
    runCities [] [] [] [] false [("P", "Pending")] =
      ("P", CityOutcome.skippedPending) :: runCities [] [] [] [] false [] :=
  ⟨c8_city_gating.1 ["example city"] ["Example City"] [("Other", "11111")] [] false
      "Example City" "Open" [("Other", "Open")] (by decide) (by decide),
   c8_city_gating.2.1 [] [] [] [] false "P" "Pending" [] (Or.inl rfl) (Or.inl rfl) rfl⟩

/-- A weather response whose single description reports a thunderstorm. -/
def c9StormTree : Json :=
  Json.obj (Entries.cons "weather"
    (Json.arr (Elems.cons
      (Json.obj (Entries.cons "description" (Json.atom "heavy thunderstorm") Entries.nil))
      Elems.nil))
    Entries.nil)

/-- C9: the storm branch fires exactly when an extracted description holds
    thunderstorm or tornado or the force-weather flag is set while no-weather
    is not; it switches the prequel and adds the wind-advisory sequel, the
    greeting clause disappears whenever the sequel is present, and no-weather
    empties the response so both prequel and sequel keep their defaults even
    under force-weather. -/
theorem c9_storm_prequel_sequel :
    (∀ (wr : Json) (w nw : Bool),
      stormBranch wr w nw = true ↔
        ((∃ d, d ∈ extract_values "description" wr ∧
            (pyIn "thunderstorm" d || pyIn "tornado" d) = true) ∨
          (w = true ∧ nw = false))) ∧
    (∀ (wr : Json) (w nw : Bool), stormBranch wr w nw = true →
      prequelOf (stormBranch wr w nw) = (" As of now, the ").toList ∧
      sequelOf (stormBranch wr w nw) =
        (". If winds exceed 35 mph, consider the Eruv down").toList) ∧
    (∀ parsha city status candle havdalah greeting holiday : List Char,
      composeBody parsha (prequelOf true) city status (sequelOf true) candle
          havdalah greeting holiday =
        parsha ++ (" As of now, the ").toList ++ city ++ (" Eruv is ").toList ++
          status ++ (". If winds exceed 35 mph, consider the Eruv down").toList ++
          (". ").toList ++ candle ++ havdalah) ∧
    (∀ (fetched : Json) (w custom : Bool),
      stormBranch (weatherResponseOf fetched true custom) w true = false ∧
      prequelOf (stormBranch (weatherResponseOf fetched true custom) w true) =
        (" The ").toList ∧
      sequelOf (stormBranch (weatherResponseOf fetched true custom) w true) = []) := by
  refine ⟨?_, ?_, ?_, ?_⟩
  · intro wr w nw
    unfold stormBranch
    constructor
    · intro h
      rw [Bool.or_eq_true] at h
      rcases h with h | h
      · left
        rw [Bool.not_eq_true'] at h
        have hne : (extract_values "description" wr).filter
            (fun i => pyIn "thunderstorm" i || pyIn "tornado" i) ≠ [] := by
          intro hnil
          rw [hnil] at h
          cases h
        rcases List.exists_mem_of_ne_nil _ hne with ⟨d, hd⟩
        rcases List.mem_filter.mp hd with ⟨hd1, hd2⟩
        exact ⟨d, hd1, hd2⟩
      · right
        rw [Bool.and_eq_true] at h
        refine ⟨h.1, ?_⟩
        have h2 := h.2
        rw [Bool.not_eq_true'] at h2
        exact h2
    · intro h
      rw [Bool.or_eq_true]
      rcases h with ⟨d, hd1, hd2⟩ | ⟨hw, hnw⟩
      · left
        rw [Bool.not_eq_true']
        have hmem : d ∈ (extract_values "description" wr).filter
            (fun i => pyIn "thunderstorm" i || pyIn "tornado" i) :=
          List.mem_filter.mpr ⟨hd1, hd2⟩
        cases hfe : (extract_values "description" wr).filter
            (fun i => pyIn "thunderstorm" i || pyIn "tornado" i) with
        | nil => exact absurd hfe (List.ne_nil_of_mem hmem)
        | cons a l => rfl
      · right
        rw [Bool.and_eq_true, Bool.not_eq_true']
        exact ⟨hw, hnw⟩
  · intro wr w nw h
    rw [h]
    exact ⟨rfl, rfl⟩
  · intro parsha city status candle havdalah greeting holiday
    have hseq : ((sequelOf true) == ([] : List Char)) = false := by decide
    simp only [composeBody, hseq, Bool.false_eq_true, if_false]
    simp [prequelOf, sequelOf]
  · intro fetched w custom
    have h0 : stormBranch (weatherResponseOf fetched true custom) w true = false := by
      have hwr : weatherResponseOf fetched true custom = Json.atom "" := by
        unfold weatherResponseOf
        rfl
      rw [hwr]
      unfold stormBranch
      simp [extract_values]
    exact ⟨h0, by rw [h0]; rfl, by rw [h0]; rfl⟩

/-- C9 witness: a concrete thunderstorm description forces the storm prequel
    and sequel, and suppressing weather keeps the branch off. -/
theorem c9_storm_witness :
    (prequelOf (stormBranch c9StormTree false false) = (" As of now, the ").toList ∧
      sequelOf (stormBranch c9StormTree false false) =
        (". If winds exceed 35 mph, consider the Eruv down").toList) ∧
    stormBranch (weatherResponseOf c9StormTree true true) false true = false :=
  ⟨c9_storm_prequel_sequel.2.1 c9StormTree false false (by decide),
   (c9_storm_prequel_sequel.2.2.2 c9StormTree false true).1⟩

/-- C6: army_to_meridian maps 0:00 to 12:00 AM and 13:05 to 1:05 PM, returns
    any input containing am or pm (case-insensitive) unchanged, and renders a
    seconds group (a second colon) exactly when the parsed seconds field is
    nonzero. -/
theorem c6_army_to_meridian :
    army_to_meridian (("0:00").toList) = some (("12:00 AM").toList) ∧
    army_to_meridian (("13:05").toList) = some (("1:05 PM").toList) ∧
    (∀ t : List Char,
      (strContains (pyLower t) ("am").toList ||
        strContains (pyLower t) ("pm").toList) = true →
      army_to_meridian t = some t) ∧
    (∀ (t out : List Char) (s : Int),
      army_to_meridian t = some out →
      (strContains (pyLower t) ("am").toList ||
        strContains (pyLower t) ("pm").toList) = false →
      secondsField t = some s →
      out.count ':' = if s = 0 then 1 else 2) := by
  refine ⟨by decide, by decide, ?_, ?_⟩
  · intro t h
    unfold army_to_meridian
    rw [h]
    rfl
  · intro t out s hEq hpass hsec
    unfold army_to_meridian at hEq
    rw [hpass, if_neg (by decide : ¬(false = true))] at hEq
    cases hA : ((splitOnChar ':' t).get? 0).bind pyInt with
    | none =>
      rw [hA] at hEq
      cases hB : ((splitOnChar ':' t).get? 1).bind pyInt with
      | none => rw [hB] at hEq; cases hEq
      | some minutes => rw [hB] at hEq; cases hEq
    | some hours0 =>
      rw [hA] at hEq
      cases hB : ((splitOnChar ':' t).get? 1).bind pyInt with
      | none => rw [hB] at hEq; cases hEq
      | some minutes =>
        rw [hB, hsec] at hEq
        have hout : pyStrInt (hour12 hours0) ++ [':'] ++ zfill2 (pyStrInt minutes) ++
            (if s ≠ 0 then [':'] ++ zfill2 (pyStrInt s) else []) ++
            meridianSuffix hours0 = out := Option.some.inj hEq
        rw [← hout]
        have h1 : List.count ':' (pyStrInt (hour12 hours0)) = 0 :=
          List.count_eq_zero.mpr (colon_not_mem_pyStrInt _)
        have h2 : List.count ':' (zfill2 (pyStrInt minutes)) = 0 :=
          List.count_eq_zero.mpr (colon_not_mem_zfill2 (colon_not_mem_pyStrInt _))
        have h3 : List.count ':' (zfill2 (pyStrInt s)) = 0 :=
          List.count_eq_zero.mpr (colon_not_mem_zfill2 (colon_not_mem_pyStrInt _))
        have h4 : List.count ':' (meridianSuffix hours0) = 0 :=
          List.count_eq_zero.mpr (colon_not_mem_meridianSuffix _)
        by_cases hs : s = 0
        · simp [hs, List.count_append, h1, h2, h4]
        · simp [hs, List.count_append, h1, h2, h3, h4]

/-- C6 witness: the passthrough case at a concrete meridian input and the
    seconds rendering at concrete inputs with zero and nonzero seconds. -/
theorem c6_army_to_meridian_witness :
    army_to_meridian (("6:30 pm").toList) = some (("6:30 pm").toList) ∧
    (("1:05:07 PM").toList).count ':' = 2 ∧
    (("12:00 AM").toList).count ':' = 1 := by
  refine ⟨c6_army_to_meridian.2.2.1 (("6:30 pm").toList) (by decide), ?_, ?_⟩
  · have h := c6_army_to_meridian.2.2.2 (("13:05:07").toList) (("1:05:07 PM").toList)
      7 (by decide) (by decide) (by decide)
    rw [if_neg (by decide : ¬((7 : Int) = 0))] at h
    exact h
  · have h := c6_army_to_meridian.2.2.2 (("0:00").toList) (("12:00 AM").toList)
      0 (by decide) (by decide) (by decide)
    rw [if_pos rfl] at h
    exact h
